import Mathlib

/-!
Shallow embedding of `src/app.py` (news-comparison-streamlit).

The program compares news results from two providers:
* Provider A ("Syracuse"): `fetch_syracuse` follows `next` links of a
  paginated REST API, accumulating `results` pages, and returns a dict
  `{count: len(all_results), results: all_results}`.
* Provider B ("Perplexity"): `fetch_perplexity` posts a prompt, parses the
  returned content as JSON and sorts the articles by `published_date`
  descending (missing dates default to `""`).
Rendering helpers truncate the Syracuse `document_extract` at 300
characters and format source-URL lines; `pick_random_category` samples a
random category string from a nested taxonomy.

Machine-level details that do not affect the verified properties are kept
abstract: HTTP transport is a function from page ids to optional pages
(`none` = transport failure / non-2xx), Python's ambient randomness is an
explicit oracle record, and Python `str` values are Lean `String`s
(both sequences of unicode code points).
-/

set_option maxRecDepth 8192

namespace NewsApp

/-- `NUM_DAYS = 90` from app.py line 13. -/
def NUM_DAYS : Nat := 90

/-- `SYRACUSE_BASE_URL` from app.py line 27. -/
def SYRACUSE_BASE_URL : String := "https://syracuse.1145.am"

/-! ## Provider A client: `fetch_syracuse` (app.py lines 70-85)

One JSON page of the paginated Syracuse API: a `results` list plus an
optional `next` URL.  URLs are abstracted to `Nat` identifiers; the remote
service is a function `Nat → Option (SyrPage α)`, where `none` models a
transport error or non-2xx status (`response.raise_for_status()`).
The story records themselves are opaque to the client, hence the type
parameter `α`. -/

structure SyrPage (α : Type) where
  results : List α
  next : Option Nat
deriving Repr, DecidableEq

/-- The dict `{"count": ..., "results": ...}` returned by `fetch_syracuse`. -/
structure SyrDict (α : Type) where
  count : Nat
  results : List α
deriving Repr, DecidableEq

/-- The `while url:` loop of `fetch_syracuse`: follow `next` links starting
from the current url, extending `all_results` with each page's `results`.
`fuel` bounds the number of iterations (the Python loop has no bound; a
server whose `next` chain never ends makes the loop diverge, modelled as
`none` when the fuel runs out).  `none` is also returned when a request
fails (`raise_for_status`). -/
def fetchLoop {α : Type} (server : Nat → Option (SyrPage α)) :
    Nat → Option Nat → List α → Option (List α)
  | _, none, all_results => some all_results
  | 0, some _, _ => none
  | fuel + 1, some url, all_results =>
    match server url with
    | none => none
    | some page => fetchLoop server fuel page.next (all_results ++ page.results)

/-- `fetch_syracuse`: run the pagination loop from the initial url (id `0`)
with an empty accumulator, then return
`{"count": len(all_results), "results": all_results}`. -/
def fetch_syracuse {α : Type} (server : Nat → Option (SyrPage α)) (fuel : Nat) :
    Option (SyrDict α) :=
  (fetchLoop server fuel (some 0) []).map fun all_results =>
    ⟨all_results.length, all_results⟩

/-- A well-formed page chain: page `i` holds the `i`-th results list and its
`next` field points to page `i+1`, except the last page whose `next` is
absent.  Requests outside the chain fail. -/
def chainServer {α : Type} (ps : List (List α)) : Nat → Option (SyrPage α) :=
  fun i =>
    match ps[i]? with
    | none => none
    | some rs => some ⟨rs, if i + 1 < ps.length then some (i + 1) else none⟩

lemma chainServer_eq {α : Type} (ps : List (List α)) (i : Nat) (h : i < ps.length) :
    chainServer ps i = some ⟨ps[i], if i + 1 < ps.length then some (i + 1) else none⟩ := by
  simp [chainServer, List.getElem?_eq_getElem h]

lemma fetchLoop_succ_some {α : Type} (server : Nat → Option (SyrPage α))
    (fuel url : Nat) (acc : List α) :
    fetchLoop server (fuel + 1) (some url) acc =
      match server url with
      | none => none
      | some page => fetchLoop server fuel page.next (acc ++ page.results) := rfl

lemma fetchLoop_none {α : Type} (server : Nat → Option (SyrPage α))
    (fuel : Nat) (acc : List α) :
    fetchLoop server fuel none acc = some acc := by
  cases fuel <;> rfl

lemma fetchLoop_succ_eq {α : Type} (server : Nat → Option (SyrPage α))
    {url : Nat} {page : SyrPage α} (h : server url = some page)
    (fuel : Nat) (acc : List α) :
    fetchLoop server (fuel + 1) (some url) acc =
      fetchLoop server fuel page.next (acc ++ page.results) := by
  rw [fetchLoop_succ_some, h]

lemma fetchLoop_chainServer {α : Type} (ps : List (List α)) :
    ∀ (fuel k : Nat) (acc : List α), k < ps.length → ps.length - k ≤ fuel →
      fetchLoop (chainServer ps) fuel (some k) acc = some (acc ++ (ps.drop k).flatten) := by
  intro fuel
  induction fuel with
  | zero => intro k acc hk hfuel; omega
  | succ n ih =>
    intro k acc hk hfuel
    rw [fetchLoop_succ_eq (chainServer ps) (chainServer_eq ps k hk)]
    by_cases hnext : k + 1 < ps.length
    · simp only [if_pos hnext]
      rw [ih (k + 1) (acc ++ ps[k]) hnext (by omega)]
      rw [List.drop_eq_getElem_cons hk, List.flatten_cons, List.append_assoc]
    · simp only [if_neg hnext]
      rw [fetchLoop_none]
      rw [List.drop_eq_getElem_cons hk, List.flatten_cons]
      have hdrop : ps.drop (k + 1) = [] := List.drop_eq_nil_of_le (by omega)
      rw [hdrop, List.flatten_nil, List.append_nil]

/-! ## Provider B client: `fetch_perplexity` (app.py lines 88-153)

The HTTP exchange and JSON decoding are opaque; the client logic the spec
talks about is the final line
`sorted(articles, key=lambda x: x.get("published_date", ""), reverse=True)`.
An article is a record of the five schema fields; every field read through
`.get` is optional. -/

structure Article where
  headline : String
  summary_text : Option String
  published_date : Option String
  published_by : Option String
  document_url : Option String
deriving Repr, DecidableEq

/-- Python compares strings lexicographically by code point; `a < b` on
`Char` is exactly code-point comparison. -/
def charListLe : List Char → List Char → Bool
  | [], _ => true
  | _ :: _, [] => false
  | a :: as, b :: bs => if a < b then true else if b < a then false else charListLe as bs

/-- `a <= b` on Python strings. -/
def pyStrLe (a b : String) : Bool := charListLe a.data b.data

/-- The sort key `lambda x: x.get("published_date", "")` (app.py line 153). -/
def dateKey (x : Article) : String := x.published_date.getD ""

/-- The comparison realised by `sorted(..., key=dateKey, reverse=True)`:
`a` may precede `b` iff `b`'s key is at most `a`'s key. -/
def descByDate (a b : Article) : Prop := pyStrLe (dateKey b) (dateKey a) = true

instance instDecDescByDate : DecidableRel descByDate := fun a b =>
  (inferInstance : Decidable (pyStrLe (dateKey b) (dateKey a) = true))

/-- The sorting step of `fetch_perplexity`.  Python's `sorted` is stable, and
a stable sort under a total preorder has a unique result, so the stable
`insertionSort` computes the same list. -/
def fetch_perplexity_sort (articles : List Article) : List Article :=
  List.insertionSort descByDate articles

lemma charListLe_total : ∀ a b : List Char, charListLe a b = true ∨ charListLe b a = true := by
  intro a
  induction a with
  | nil => intro b; left; rfl
  | cons x as ih =>
    intro b
    cases b with
    | nil => right; rfl
    | cons y bs =>
      rcases lt_trichotomy x y with hxy | hxy | hxy
      · left; simp [charListLe, hxy]
      · subst hxy
        simpa [charListLe, lt_irrefl] using ih bs
      · right; simp [charListLe, hxy]

lemma charListLe_trans :
    ∀ a b c : List Char, charListLe a b = true → charListLe b c = true →
      charListLe a c = true := by
  intro a
  induction a with
  | nil => intro b c _ _; rfl
  | cons x as ih =>
    intro b c hab hbc
    cases b with
    | nil => simp [charListLe] at hab
    | cons y bs =>
      cases c with
      | nil => simp [charListLe] at hbc
      | cons z cs =>
        simp only [charListLe] at hab hbc ⊢
        rcases lt_trichotomy x y with hxy | hxy | hxy
        · rcases lt_trichotomy y z with hyz | hyz | hyz
          · simp [lt_trans hxy hyz]
          · subst hyz; simp [hxy]
          · simp [not_lt_of_lt hyz, hyz] at hbc
        · subst hxy
          rcases lt_trichotomy x z with hxz | hxz | hxz
          · simp [hxz]
          · subst hxz
            simp only [lt_irrefl, if_false] at hab hbc ⊢
            exact ih bs cs hab hbc
          · simp [not_lt_of_lt hxz, hxz] at hbc
        · simp [not_lt_of_lt hxy, hxy] at hab

instance : IsTrans Article descByDate :=
  ⟨fun _ _ _ hab hbc => charListLe_trans _ _ _ hbc hab⟩

instance : IsTotal Article descByDate :=
  ⟨fun a b => by
    unfold descByDate pyStrLe
    exact (charListLe_total (dateKey a).data (dateKey b).data).symm⟩

/-- Concrete article with `published_date = "2024-01-03"`. -/
def artJan : Article := ⟨"jan", none, some "2024-01-03", none, none⟩

/-- Concrete article with no `published_date`. -/
def artNoDate : Article := ⟨"undated", none, none, none, none⟩

/-- Concrete article with `published_date = "2024-02-01"`. -/
def artFeb : Article := ⟨"feb", none, some "2024-02-01", none, none⟩

/-! ## Query orchestration: the "Get News" handler (app.py lines 258-291)

Each provider call sits in its own `try/except`.  A call either returns a
value or raises; `httpx.HTTPStatusError` carries the response status code
and body text, anything else is a generic exception.  The handler converts
an exception into an inline `st.error` message (a `Failure` display) and a
normal return into a rendered panel (a `Success`). -/

inductive FetchError where
  | httpStatus (code : Nat) (body : String)
  | generic (msg : String)
deriving Repr, DecidableEq

inductive QueryResult (α : Type) where
  | success (v : α)
  | failure (msg : String)
deriving Repr, DecidableEq

/-- Whether a result is the inline error display. -/
def QueryResult.isFailure {α : Type} : QueryResult α → Bool
  | .failure _ => true
  | .success _ => false

/-- One provider's `try/except` block: `except httpx.HTTPStatusError as e`
renders `f"{name} error ({e.response.status_code}): {e.response.text}"`,
`except Exception as e` renders `f"{name} error: {e}"`. -/
def handleProvider {α : Type} (nm : String) (call : Except FetchError α) : QueryResult α :=
  match call with
  | .ok v => .success v
  | .error (.httpStatus code body) =>
      .failure (nm ++ " error (" ++ toString code ++ "): " ++ body)
  | .error (.generic msg) => .failure (nm ++ " error: " ++ msg)

/-- The two wrapped provider calls of the "Get News" handler, left panel
(Syracuse) and right panel (Perplexity). -/
def runGetNews {α β : Type} (syr : Except FetchError α) (perp : Except FetchError β) :
    QueryResult α × QueryResult β :=
  (handleProvider "Syracuse" syr, handleProvider "Perplexity" perp)

/-! ## Category picker: `pick_random_category` (app.py lines 200-222)

The taxonomy `CATEGORIES` is a dict from top-level industry names to
sub-industry dicts, which map sub-industry names to leaf term lists.  The
code guards with `isinstance(second_map, dict)`, so a top-level value is
modelled as `Option SecondMap` (`none` = not a dict).  Python dicts are
insertion-ordered association lists with distinct keys; `random.choice` and
`random.sample` draw from an ambient random source, modelled as an explicit
oracle `RandSource` (an index per `choice` call and an index stream for
`sample`), quantified over in all theorems. -/

abbrev SecondMap := List (String × List String)

abbrev Taxonomy := List (String × Option SecondMap)

/-- The random outcomes one call of `pick_random_category` consumes:
the `random.random() < 0.5` coin, the `random.choice` draws (as indices,
reduced mod the list length) and the index stream used by `random.sample`. -/
structure RandSource where
  coin : Bool
  topIdx : Nat
  sampleIdx : Nat → Nat
  secondIdx : Nat
  leafIdx : Nat

/-- `random.choice(l)`: a uniformly drawn element, here the element at the
oracle's index (mod the length). -/
def pyChoice {α : Type} [Inhabited α] (idx : Nat) (l : List α) : α :=
  l.getD (idx % l.length) default

/-- `random.sample(l, k)`: `k` elements drawn without replacement, realised
by repeatedly removing the element at the oracle's next index. -/
def sampleWoR {α : Type} [Inhabited α] (g : Nat → Nat) : Nat → Nat → List α → List α
  | _, 0, _ => []
  | _, _ + 1, [] => []
  | step, k + 1, x :: xs =>
    (x :: xs).getD (g step % (x :: xs).length) default ::
      sampleWoR g (step + 1) k ((x :: xs).eraseIdx (g step % (x :: xs).length))

/-- The sub-industry keys `list(second_map.keys()) if isinstance(second_map, dict) else []`
of the top-level entry chosen in branch A. -/
def branchAChildren (g : RandSource) (categories : Taxonomy) : List String :=
  match (pyChoice g.topIdx categories).2 with
  | some m => m.map Prod.fst
  | none => []

/-- `random.sample(children, min(3, len(children))) if children else []`. -/
def branchASample (g : RandSource) (categories : Taxonomy) : List String :=
  let children := branchAChildren g categories
  if children.isEmpty then []
  else sampleWoR g.sampleIdx 0 (min 3 children.length) children

/-- Branch A (app.py lines 206-211): render
`f"{top} ({', '.join(sample)})" if sample else top`. -/
def branchA (g : RandSource) (categories : Taxonomy) : String :=
  let top := (pyChoice g.topIdx categories).1
  let sample := branchASample g categories
  if sample.isEmpty then top
  else top ++ " (" ++ String.intercalate ", " sample ++ ")"

/-- Branch B body: `if not isinstance(second_map, dict) or not second_map:
return top`, then descend to a sub-industry and possibly a leaf term. -/
def branchBInner (g : RandSource) (top : String) : Option SecondMap → String
  | none => top
  | some m =>
    if m.isEmpty then top
    else
      let second := (pyChoice g.secondIdx m).1
      let leaves := (pyChoice g.secondIdx m).2
      if leaves.isEmpty then second ++ " (" ++ top ++ ")"
      else pyChoice g.leafIdx leaves ++ " (" ++ top ++ " - " ++ second ++ ")"

/-- Branch B (app.py lines 212-222). -/
def branchB (g : RandSource) (categories : Taxonomy) : String :=
  branchBInner g (pyChoice g.topIdx categories).1 (pyChoice g.topIdx categories).2

/-- `pick_random_category` (app.py lines 200-222). -/
def pick_random_category (g : RandSource) (categories : Taxonomy) : String :=
  let tops := categories.map Prod.fst
  if tops.isEmpty then ""
  else if g.coin then branchA g categories else branchB g categories

lemma pyChoice_mem {α : Type} [Inhabited α] (idx : Nat) (l : List α) (h : l ≠ []) :
    pyChoice idx l ∈ l := by
  have hlen : 0 < l.length := List.length_pos.mpr h
  have hmod : idx % l.length < l.length := Nat.mod_lt _ hlen
  rw [pyChoice, List.getD_eq_getElem l default hmod]
  exact List.getElem_mem hmod

lemma sampleWoR_length {α : Type} [Inhabited α] (g : Nat → Nat) :
    ∀ (k step : Nat) (l : List α), (sampleWoR g step k l).length = min k l.length := by
  intro k
  induction k with
  | zero => intro step l; simp [sampleWoR]
  | succ n ih =>
    intro step l
    cases l with
    | nil => simp [sampleWoR]
    | cons x xs =>
      simp only [sampleWoR, List.length_cons, ih (step + 1), List.length_eraseIdx]
      rw [if_pos (show g step % (xs.length + 1) < xs.length + 1 from
        Nat.mod_lt _ (Nat.succ_pos _))]
      omega

lemma sampleWoR_subset {α : Type} [Inhabited α] (g : Nat → Nat) :
    ∀ (k step : Nat) (l : List α), ∀ y ∈ sampleWoR g step k l, y ∈ l := by
  intro k
  induction k with
  | zero => intro step l y hy; simp [sampleWoR] at hy
  | succ n ih =>
    intro step l y hy
    cases l with
    | nil => simp [sampleWoR] at hy
    | cons x xs =>
      have hi : g step % (x :: xs).length < (x :: xs).length :=
        Nat.mod_lt _ (by simp)
      simp only [sampleWoR] at hy
      rcases List.mem_cons.mp hy with h1 | h2
      · rw [h1, List.getD_eq_getElem _ default hi]
        exact List.getElem_mem hi
      · exact (List.eraseIdx_sublist (x :: xs) (g step % (x :: xs).length)).subset
          (ih (step + 1) _ y h2)

lemma getElem_not_mem_eraseIdx {α : Type} (l : List α) (hnd : l.Nodup)
    (i : Nat) (hi : i < l.length) : l[i] ∉ l.eraseIdx i := by
  rw [List.eraseIdx_eq_take_drop_succ]
  intro hmem
  have hl : l.take i ++ l.drop i = l := List.take_append_drop i l
  rw [List.drop_eq_getElem_cons hi] at hl
  rw [← hl] at hnd
  rcases List.mem_append.mp hmem with h1 | h2
  · exact (List.nodup_append.mp hnd).2.2 h1 (List.mem_cons_self _ _)
  · exact (List.nodup_cons.mp (List.nodup_append.mp hnd).2.1).1 h2

lemma sampleWoR_nodup {α : Type} [Inhabited α] (g : Nat → Nat) :
    ∀ (k step : Nat) (l : List α), l.Nodup → (sampleWoR g step k l).Nodup := by
  intro k
  induction k with
  | zero => intro step l _; simp [sampleWoR]
  | succ n ih =>
    intro step l hnd
    cases l with
    | nil => simp [sampleWoR]
    | cons x xs =>
      have hi : g step % (x :: xs).length < (x :: xs).length :=
        Nat.mod_lt _ (by simp)
      simp only [sampleWoR]
      rw [List.getD_eq_getElem _ default hi]
      refine List.nodup_cons.mpr ⟨fun hmem => ?_, ?_⟩
      · exact getElem_not_mem_eraseIdx _ hnd _ hi
          (sampleWoR_subset g n (step + 1) _ _ hmem)
      · exact ih (step + 1) _ ((List.eraseIdx_sublist _ _).nodup hnd)

lemma string_append_eq_empty (s t : String) : s ++ t = "" ↔ s = "" ∧ t = "" := by
  constructor
  · intro h
    have hd : s.data ++ t.data = [] := by
      rw [← String.data_append, h]
    rcases List.append_eq_nil.mp hd with ⟨hs, ht⟩
    exact ⟨String.ext hs, String.ext ht⟩
  · rintro ⟨hs, ht⟩
    rw [hs, ht]
    rfl

lemma isEmpty_false_of_ne_nil {α : Type} {l : List α} (h : l ≠ []) : l.isEmpty = false := by
  cases l with
  | nil => exact absurd rfl h
  | cons x xs => rfl

lemma pick_random_category_on {g : RandSource} {cats : Taxonomy} (hne : cats ≠ []) :
    pick_random_category g cats = if g.coin then branchA g cats else branchB g cats := by
  have hmap : (cats.map Prod.fst).isEmpty = false := by
    cases cats with
    | nil => exact absurd rfl hne
    | cons p l => rfl
  simp only [pick_random_category, hmap, Bool.false_eq_true, if_false]

lemma branchA_ne_empty (g : RandSource) (cats : Taxonomy)
    (htop : (pyChoice g.topIdx cats).1 ≠ "") : branchA g cats ≠ "" := by
  simp only [branchA]
  by_cases h : (branchASample g cats).isEmpty
  · rw [if_pos h]; exact htop
  · rw [if_neg h]
    intro he
    simp only [string_append_eq_empty] at he
    exact absurd he.2 (by decide)

lemma branchB_ne_empty (g : RandSource) (cats : Taxonomy)
    (htop : (pyChoice g.topIdx cats).1 ≠ "") : branchB g cats ≠ "" := by
  rw [branchB]
  cases hsm : (pyChoice g.topIdx cats).2 with
  | none => exact htop
  | some m =>
    simp only [branchBInner]
    by_cases hm : m.isEmpty
    · rw [if_pos hm]; exact htop
    · rw [if_neg hm]
      by_cases hl : (pyChoice g.secondIdx m).2.isEmpty
      · rw [if_pos hl]
        intro he
        simp only [string_append_eq_empty] at he
        exact absurd he.2 (by decide)
      · rw [if_neg hl]
        intro he
        simp only [string_append_eq_empty] at he
        exact absurd he.2 (by decide)

lemma branchASample_spec (g : RandSource) (cats : Taxonomy)
    (hnd : (branchAChildren g cats).Nodup) :
    (branchASample g cats).Nodup ∧
      (∀ s ∈ branchASample g cats, s ∈ branchAChildren g cats) ∧
      (branchASample g cats).length ≤ 3 ∧
      (branchASample g cats).length ≤ (branchAChildren g cats).length := by
  by_cases hc : (branchAChildren g cats).isEmpty
  · have h0 : branchASample g cats = [] := by
      rw [branchASample, if_pos hc]
    simp [h0]
  · have h1 : branchASample g cats =
        sampleWoR g.sampleIdx 0 (min 3 (branchAChildren g cats).length)
          (branchAChildren g cats) := by
      rw [branchASample, if_neg hc]
    rw [h1]
    refine ⟨sampleWoR_nodup g.sampleIdx _ 0 _ hnd,
      sampleWoR_subset g.sampleIdx _ 0 _, ?_, ?_⟩
    · rw [sampleWoR_length]; omega
    · rw [sampleWoR_length]; omega

/-- A concrete two-level taxonomy used by the witnesses. -/
def catsEx : Taxonomy := [("Tech", some [("AI", ["ML"]), ("Chips", [])])]

/-- The sub-industry dict of `catsEx`'s only entry. -/
def mEx : SecondMap := [("AI", ["ML"]), ("Chips", [])]

/-- A concrete random source taking branch A. -/
def gA : RandSource := ⟨true, 0, fun _ => 0, 0, 0⟩

/-- A concrete random source taking branch B. -/
def gB : RandSource := ⟨false, 0, fun _ => 0, 0, 0⟩

/-! ## Result renderers (app.py lines 158-195)

`render_syracuse_results` shows, per story, the headline, a caption, the
body excerpt `extract[:300] + ("..." if len(extract) > 300 else "")` (only
when the extract is non-empty), and a source line that is
`f"[Source]({url})"` when a URL is present and the literal
`"No source URL"` otherwise.  `render_perplexity_results` shows the
headline, a caption, `summary_text` verbatim, and a `[Source]` line only
`if url:` — nothing is emitted for an absent URL. -/

structure SyrStory where
  headline : String
  activity_class : Option String
  published_date : Option String
  published_by : Option String
  document_extract : Option String
  document_url : Option String
  uri : Option String
deriving Repr, DecidableEq

/-- Python slicing `s[:n]` on a string: the first `n` code points. -/
def pySlice (s : String) (n : Nat) : String := String.mk (s.data.take n)

/-- `extract[:300] + ("..." if len(extract) > 300 else "")` (app.py line 171). -/
def truncateExtract (extract : String) : String :=
  pySlice extract 300 ++ (if 300 < extract.data.length then "..." else "")

/-- The body text written by `render_syracuse_results` for one story
(`st.write` runs only `if extract:`). -/
def syracuseBodyLines (story : SyrStory) : List String :=
  let extract := story.document_extract.getD ""
  if extract = "" then [] else [truncateExtract extract]

/-- The source line of `render_syracuse_results` (app.py lines 173-177). -/
def syracuseSourceLine (story : SyrStory) : String :=
  let url := story.document_url.getD ""
  let url_markdown := if url = "" then "No source URL" else "[Source](" ++ url ++ ")"
  let syracuse_uri := story.uri.getD ""
  let syracuse_markdown :=
    if syracuse_uri = "" then "No Syracuse URI"
    else "[View on Syracuse](" ++ SYRACUSE_BASE_URL ++ "/api/v1/stories/" ++ syracuse_uri ++ ")"
  url_markdown ++ " | " ++ syracuse_markdown

/-- The body text written by `render_perplexity_results` for one article:
`st.write(article.get("summary_text", ""))` — no truncation. -/
def perplexityBodyText (article : Article) : String := article.summary_text.getD ""

/-- The source line(s) of `render_perplexity_results` (app.py lines 191-193):
`st.markdown` runs only `if url:`, so an absent URL emits nothing. -/
def perplexitySourceLines (article : Article) : List String :=
  let url := article.document_url.getD ""
  if url = "" then [] else ["[Source](" ++ url ++ ")"]

/-- A 350-character summary. -/
def longSummary : String := String.mk (List.replicate 350 'a')

/-- An article whose summary has 350 characters. -/
def artLong : Article := ⟨"long", some longSummary, none, none, none⟩

/-- An article with no `document_url`. -/
def artNoUrl : Article := ⟨"nourl", some "text", some "2024-01-01", some "pub", none⟩

/-- A story with no `document_url`. -/
def storyNoUrl : SyrStory := ⟨"s", none, none, none, some "ext", none, some "u1"⟩

/-! ## Fixed 90-day lookback window (app.py lines 13, 73, 89-91, 139-140)

`fetch_syracuse` always sends `days_ago = NUM_DAYS`; `fetch_perplexity`
computes `max_date = date.today()` and `min_date = max_date -
timedelta(days=NUM_DAYS)` and sends both through `strftime("%m/%d/%Y")`.
Neither function takes a lookback argument: the models below depend only on
industry, location and the current date.  `timedelta(days=n)` subtraction
is exact calendar-day arithmetic, embedded as `n` single-day decrements. -/

structure PyDate where
  year : Nat
  month : Nat
  day : Nat
deriving Repr, DecidableEq

def isLeap (y : Nat) : Bool := (y % 4 == 0 && y % 100 != 0) || (y % 400 == 0)

def daysInMonth (y m : Nat) : Nat :=
  if m = 2 then (if isLeap y then 29 else 28)
  else if m = 4 ∨ m = 6 ∨ m = 9 ∨ m = 11 then 30
  else 31

/-- The previous calendar day. -/
def predDay (d : PyDate) : PyDate :=
  if 1 < d.day then ⟨d.year, d.month, d.day - 1⟩
  else if 1 < d.month then ⟨d.year, d.month - 1, daysInMonth d.year (d.month - 1)⟩
  else ⟨d.year - 1, 12, 31⟩

/-- `d - timedelta(days=n)`. -/
def subDays (d : PyDate) : Nat → PyDate
  | 0 => d
  | n + 1 => subDays (predDay d) n

/-- Two-digit zero-padded field of `strftime`. -/
def pad2 (n : Nat) : String := if n < 10 then "0" ++ toString n else toString n

/-- `strftime("%m/%d/%Y")`. -/
def strftimeMDY (d : PyDate) : String :=
  pad2 d.month ++ "/" ++ pad2 d.day ++ "/" ++ toString d.year

/-- The query params of `fetch_syracuse` (app.py line 73). -/
def syracuseParams (industry location : String) : List (String × String) :=
  [("industry", industry), ("location", location), ("days_ago", toString NUM_DAYS)]

/-- The two date filters of the `fetch_perplexity` payload (app.py lines
139-140). -/
structure PerplexityDateFilters where
  search_after_date_filter : String
  search_before_date_filter : String
deriving Repr, DecidableEq

def perplexityDateFilters (today : PyDate) : PerplexityDateFilters :=
  let max_date := today
  let min_date := subDays max_date NUM_DAYS
  ⟨strftimeMDY min_date, strftimeMDY max_date⟩

end NewsApp

namespace NewsApp

/-- C1: for every finite non-empty sequence of response pages where page `i`
carries a `next` link to page `i+1` and the final page has no `next`,
`fetch_syracuse` returns the concatenation of all pages' `results` lists in
original order, with total `count` equal to the sum of the per-page
result-list lengths. -/
theorem fetch_syracuse_pagination {α : Type} (ps : List (List α)) (h : ps ≠ []) :
    fetch_syracuse (chainServer ps) ps.length =
      some ⟨(ps.map List.length).sum, ps.flatten⟩ := by
  have hlen : 0 < ps.length := List.length_pos.mpr h
  unfold fetch_syracuse
  rw [fetchLoop_chainServer ps ps.length 0 [] hlen (by omega)]
  simp [List.length_flatten]

/-- Witness for C1: the spec's example, page 1 with 2 items and a `next`
link, page 2 with 1 item and no `next`; the client returns all 3 items in
order with count 3. -/
theorem fetch_syracuse_pagination_witness :
    ([[1, 2], [3]] : List (List Nat)) ≠ [] ∧
      fetch_syracuse (chainServer ([[1, 2], [3]] : List (List Nat))) 2 =
        some ⟨(([[1, 2], [3]] : List (List Nat)).map List.length).sum,
              ([[1, 2], [3]] : List (List Nat)).flatten⟩ :=
  ⟨by decide, @fetch_syracuse_pagination Nat [[1, 2], [3]] (by decide)⟩

/-- C9: whenever `fetch_syracuse` returns a dict, its `count` field equals
the length of its `results` list: the count is computed locally as
`len(all_results)`, never taken from the provider's reported count. -/
theorem fetch_syracuse_count_invariant {α : Type} (server : Nat → Option (SyrPage α))
    (fuel : Nat) (d : SyrDict α) (h : fetch_syracuse server fuel = some d) :
    d.count = d.results.length := by
  unfold fetch_syracuse at h
  rcases Option.map_eq_some'.mp h with ⟨rs, _, hd⟩
  subst hd
  rfl

/-- Witness for C9: a concrete one-page server for which the returned dict
has `count = 2 = len(results)`. -/
theorem fetch_syracuse_count_invariant_witness :
    fetch_syracuse (chainServer ([[10, 20]] : List (List Nat))) 1 = some ⟨2, [10, 20]⟩ ∧
      (2 : Nat) = ([10, 20] : List Nat).length :=
  ⟨by decide,
   @fetch_syracuse_count_invariant Nat (chainServer [[10, 20]]) 1 ⟨2, [10, 20]⟩ (by decide)⟩

/-- C2: `fetch_perplexity` returns its parsed article list sorted by
`published_date` descending; a record with no `published_date` is keyed as
the empty string (hence sorts last); in particular dates
`"2024-01-03"`, missing, `"2024-02-01"` come out in the order
`"2024-02-01"`, `"2024-01-03"`, missing. -/
theorem fetch_perplexity_sorted :
    (∀ l : List Article,
        (fetch_perplexity_sort l).Perm l ∧
          List.Sorted descByDate (fetch_perplexity_sort l)) ∧
      (∀ x : Article, x.published_date = none → dateKey x = "") ∧
        fetch_perplexity_sort [artJan, artNoDate, artFeb] = [artFeb, artJan, artNoDate] := by
  refine ⟨fun l => ⟨List.perm_insertionSort descByDate l,
    List.sorted_insertionSort descByDate l⟩, fun x hx => ?_, by decide⟩
  simp [dateKey, hx]

/-- Witness for C2: the undated article is keyed as the empty string, and
the spec's three-article example is a permutation of its input. -/
theorem fetch_perplexity_sorted_witness :
    (fetch_perplexity_sort [artJan, artNoDate, artFeb]).Perm [artJan, artNoDate, artFeb] ∧
      artNoDate.published_date = none ∧ dateKey artNoDate = "" :=
  ⟨(fetch_perplexity_sorted.1 [artJan, artNoDate, artFeb]).1,
   rfl, fetch_perplexity_sorted.2.1 artNoDate rfl⟩

/-- C3: each provider call is wrapped so that an exception yields a
per-provider inline Failure display instead of propagating; when Provider A
throws and Provider B succeeds the outcome pair is (Failure, Success) with
Provider B's results unaffected, and an HTTP-status failure message carries
the status code and the response body text. -/
theorem orchestrator_independence {α β : Type} (e : FetchError) (v : β) :
    (runGetNews (Except.error e : Except FetchError α) (Except.ok v)).1.isFailure = true ∧
      (runGetNews (Except.error e : Except FetchError α) (Except.ok v)).2 =
        QueryResult.success v ∧
        ∀ code body, e = FetchError.httpStatus code body →
          (runGetNews (Except.error e : Except FetchError α) (Except.ok v)).1 =
              QueryResult.failure ("Syracuse error (" ++ toString code ++ "): " ++ body) ∧
            List.IsInfix (toString code).data
              ("Syracuse error (" ++ toString code ++ "): " ++ body).data ∧
            List.IsInfix body.data
              ("Syracuse error (" ++ toString code ++ "): " ++ body).data := by
  refine ⟨?_, rfl, fun code body he => ?_⟩
  · cases e <;> rfl
  · subst he
    refine ⟨rfl, ⟨"Syracuse error (".data, ("): " ++ body).data, ?_⟩,
      ⟨("Syracuse error (" ++ toString code ++ "): ").data, [], ?_⟩⟩
    · simp [String.data_append]
    · simp [String.data_append]

/-- Witness for C3: Provider A fails with HTTP 404, Provider B succeeds with
one article; the pair is (Failure, Success) with B's list intact. -/
theorem orchestrator_independence_witness :
    (runGetNews (Except.error (FetchError.httpStatus 404 "not found") :
          Except FetchError (SyrDict Nat)) (Except.ok [artFeb])).1.isFailure = true ∧
      (runGetNews (Except.error (FetchError.httpStatus 404 "not found") :
          Except FetchError (SyrDict Nat)) (Except.ok [artFeb])).2 =
        QueryResult.success [artFeb] := by
  have h := @orchestrator_independence (SyrDict Nat) (List Article)
    (FetchError.httpStatus 404 "not found") [artFeb]
  exact ⟨h.1, h.2.1⟩

/-- C4: on an empty taxonomy `pick_random_category` returns the empty
string; on a non-empty taxonomy whose top-level keys are non-empty strings
it returns a non-empty string, for every outcome of the random source. -/
theorem pick_random_category_total (g : RandSource) (cats : Taxonomy)
    (hne : cats ≠ []) (hkeys : ∀ p ∈ cats, p.1 ≠ "") :
    pick_random_category g [] = "" ∧ pick_random_category g cats ≠ "" := by
  refine ⟨rfl, ?_⟩
  have htop : (pyChoice g.topIdx cats).1 ≠ "" :=
    hkeys (pyChoice g.topIdx cats) (pyChoice_mem g.topIdx cats hne)
  rw [pick_random_category_on hne]
  cases hc : g.coin
  · simp only [Bool.false_eq_true, if_false]
    exact branchB_ne_empty g cats htop
  · simp only [if_true]
    exact branchA_ne_empty g cats htop

/-- Witness for C4: a concrete two-level taxonomy and random source. -/
theorem pick_random_category_total_witness :
    (catsEx ≠ [] ∧ ∀ p ∈ catsEx, p.1 ≠ "") ∧
      pick_random_category gA [] = "" ∧ pick_random_category gA catsEx ≠ "" :=
  ⟨⟨by decide, by decide⟩, pick_random_category_total gA catsEx (by decide) (by decide)⟩

/-- C5: on branch A (coin true) of a non-empty taxonomy, the output is the
chosen top-level key alone or followed by the comma-joined sample in
parentheses, the sampled sub-industry keys are pairwise distinct, drawn
from the chosen entry's sub-industry keys, at most 3 of them and at most
as many as are available, and the output contains the top-level key as a
substring. -/
theorem branchA_properties (g : RandSource) (cats : Taxonomy)
    (hne : cats ≠ []) (hcoin : g.coin = true)
    (hnd : (branchAChildren g cats).Nodup) :
    pick_random_category g cats =
        (if (branchASample g cats).isEmpty then (pyChoice g.topIdx cats).1
          else (pyChoice g.topIdx cats).1 ++ " (" ++
            String.intercalate ", " (branchASample g cats) ++ ")") ∧
      (branchASample g cats).Nodup ∧
      (∀ s ∈ branchASample g cats, s ∈ branchAChildren g cats) ∧
      (branchASample g cats).length ≤ 3 ∧
      (branchASample g cats).length ≤ (branchAChildren g cats).length ∧
      List.IsInfix (pyChoice g.topIdx cats).1.data (pick_random_category g cats).data := by
  have hpick : pick_random_category g cats = branchA g cats := by
    rw [pick_random_category_on hne, hcoin, if_pos rfl]
  have hA : branchA g cats =
      (if (branchASample g cats).isEmpty then (pyChoice g.topIdx cats).1
        else (pyChoice g.topIdx cats).1 ++ " (" ++
          String.intercalate ", " (branchASample g cats) ++ ")") := by
    simp only [branchA]
  obtain ⟨hndS, hsub, hle3, hlen⟩ := branchASample_spec g cats hnd
  refine ⟨hpick.trans hA, hndS, hsub, hle3, hlen, ?_⟩
  rw [hpick, hA]
  by_cases hs : (branchASample g cats).isEmpty
  · rw [if_pos hs]
  · rw [if_neg hs]
    refine ⟨[], (" (" ++ String.intercalate ", " (branchASample g cats) ++ ")").data, ?_⟩
    simp [String.data_append]

/-- Witness for C5: branch A on the concrete taxonomy; the oracle draws the
first indices throughout. -/
theorem branchA_properties_witness :
    (catsEx ≠ [] ∧ gA.coin = true ∧ (branchAChildren gA catsEx).Nodup) ∧
      pick_random_category gA catsEx =
          (if (branchASample gA catsEx).isEmpty then (pyChoice gA.topIdx catsEx).1
            else (pyChoice gA.topIdx catsEx).1 ++ " (" ++
              String.intercalate ", " (branchASample gA catsEx) ++ ")") ∧
        (branchASample gA catsEx).Nodup ∧
        (∀ s ∈ branchASample gA catsEx, s ∈ branchAChildren gA catsEx) ∧
        (branchASample gA catsEx).length ≤ 3 ∧
        (branchASample gA catsEx).length ≤ (branchAChildren gA catsEx).length ∧
        List.IsInfix (pyChoice gA.topIdx catsEx).1.data
          (pick_random_category gA catsEx).data :=
  ⟨⟨by decide, by decide, by decide⟩,
   branchA_properties gA catsEx (by decide) (by decide) (by decide)⟩

/-- C6: on branch B (coin false) of a non-empty taxonomy, with chosen
top-level entry and chosen sub-industry: a non-dict sub-industry value or
an empty one yields just the top key; a sub-industry with no leaves renders
as sub followed by top in parentheses; one with leaves renders as a leaf of
that sub-industry followed by top and sub in parentheses. -/
theorem branchB_properties (g : RandSource) (cats : Taxonomy)
    (hne : cats ≠ []) (hcoin : g.coin = false) :
    ((pyChoice g.topIdx cats).2 = none →
        pick_random_category g cats = (pyChoice g.topIdx cats).1) ∧
      ((pyChoice g.topIdx cats).2 = some [] →
        pick_random_category g cats = (pyChoice g.topIdx cats).1) ∧
      ∀ m, (pyChoice g.topIdx cats).2 = some m → m ≠ [] →
        pyChoice g.secondIdx m ∈ m ∧
          ((pyChoice g.secondIdx m).2 = [] →
            pick_random_category g cats =
              (pyChoice g.secondIdx m).1 ++ " (" ++ (pyChoice g.topIdx cats).1 ++ ")") ∧
          ((pyChoice g.secondIdx m).2 ≠ [] →
            pick_random_category g cats =
                pyChoice g.leafIdx (pyChoice g.secondIdx m).2 ++ " (" ++
                  (pyChoice g.topIdx cats).1 ++ " - " ++ (pyChoice g.secondIdx m).1 ++ ")" ∧
              pyChoice g.leafIdx (pyChoice g.secondIdx m).2 ∈ (pyChoice g.secondIdx m).2) := by
  have hpick : pick_random_category g cats = branchB g cats := by
    rw [pick_random_category_on hne, hcoin]
    simp only [Bool.false_eq_true, if_false]
  refine ⟨fun h => ?_, fun h => ?_, fun m hm hmne => ?_⟩
  · rw [hpick, branchB, h]
    rfl
  · rw [hpick, branchB, h]
    simp only [branchBInner]
    rw [if_pos List.isEmpty_nil]
  · have hmE : ¬m.isEmpty = true := by
      rw [isEmpty_false_of_ne_nil hmne]; exact Bool.false_ne_true
    refine ⟨pyChoice_mem g.secondIdx m hmne, fun hl => ?_, fun hl => ?_⟩
    · rw [hpick, branchB, hm]
      simp only [branchBInner]
      rw [if_neg hmE, if_pos (show (pyChoice g.secondIdx m).2.isEmpty = true by
        rw [hl]; rfl)]
    · have hlE : ¬(pyChoice g.secondIdx m).2.isEmpty = true := by
        rw [isEmpty_false_of_ne_nil hl]; exact Bool.false_ne_true
      refine ⟨?_, pyChoice_mem g.leafIdx _ hl⟩
      rw [hpick, branchB, hm]
      simp only [branchBInner]
      rw [if_neg hmE, if_neg hlE]

/-- Witness for C6: branch B on the concrete taxonomy lands on the leaf
case and the picked leaf belongs to the chosen sub-industry. -/
theorem branchB_properties_witness :
    (catsEx ≠ [] ∧ gB.coin = false ∧ (pyChoice gB.topIdx catsEx).2 = some mEx ∧
        mEx ≠ [] ∧ (pyChoice gB.secondIdx mEx).2 ≠ []) ∧
      pick_random_category gB catsEx =
          pyChoice gB.leafIdx (pyChoice gB.secondIdx mEx).2 ++ " (" ++
            (pyChoice gB.topIdx catsEx).1 ++ " - " ++ (pyChoice gB.secondIdx mEx).1 ++ ")" ∧
        pyChoice gB.leafIdx (pyChoice gB.secondIdx mEx).2 ∈ (pyChoice gB.secondIdx mEx).2 := by
  refine ⟨⟨by decide, by decide, by decide, by decide, by decide⟩, ?_⟩
  exact ((branchB_properties gB catsEx (by decide) (by decide)).2.2 mEx (by decide)
    (by decide)).2.2 (by decide)

/-- C7 counterexample: the claim speaks of either renderer, but Provider B's
renderer does not cap the body: a 350-character summary is displayed
verbatim, not as its first 300 characters plus an ellipsis. -/
theorem renderer_truncation_cex :
    300 < (perplexityBodyText artLong).data.length ∧
      perplexityBodyText artLong ≠ pySlice (perplexityBodyText artLong) 300 ++ "..." ∧
      perplexityBodyText artLong = longSummary :=
  ⟨by decide, by decide, rfl⟩

/-- C7 amended: in Provider A's renderer the displayed body is the first
300 characters followed by an ellipsis when the extract exceeds 300
characters and the extract unchanged otherwise; Provider B's renderer
displays `summary_text` unchanged with no cap. -/
theorem renderer_truncation_amended :
    (∀ extract : String, 300 < extract.data.length →
        truncateExtract extract = pySlice extract 300 ++ "...") ∧
      (∀ extract : String, extract.data.length ≤ 300 →
        truncateExtract extract = extract) ∧
      ∀ article : Article, perplexityBodyText article = article.summary_text.getD "" := by
  refine ⟨fun e he => ?_, fun e he => ?_, fun a => rfl⟩
  · rw [truncateExtract, if_pos he]
  · rw [truncateExtract, if_neg (by omega)]
    apply String.ext
    simp [pySlice, String.data_append, List.take_of_length_le he]

/-- Witness for C7 (amended): a 350-character extract is cut at 300 with an
ellipsis; a 5-character extract is unchanged. -/
theorem renderer_truncation_amended_witness :
    (300 < longSummary.data.length ∧
        truncateExtract longSummary = pySlice longSummary 300 ++ "...") ∧
      ("short".data.length ≤ 300 ∧ truncateExtract "short" = "short") :=
  ⟨⟨by decide, renderer_truncation_amended.1 longSummary (by decide)⟩,
   ⟨by decide, renderer_truncation_amended.2.1 "short" (by decide)⟩⟩

/-- C8 counterexample: the claim speaks of either renderer, but Provider B's
renderer emits no source line at all for an item with an absent URL, so no
line stating "No source URL" appears. -/
theorem renderer_no_source_url_cex :
    artNoUrl.document_url.getD "" = "" ∧
      perplexitySourceLines artNoUrl = [] ∧
      ¬∃ s ∈ perplexitySourceLines artNoUrl, List.IsInfix "No source URL".data s.data := by
  refine ⟨rfl, rfl, ?_⟩
  rintro ⟨s, hs, -⟩
  rw [show perplexitySourceLines artNoUrl = [] from rfl] at hs
  exact List.not_mem_nil s hs

/-- C8 amended: Provider A's renderer always emits a source line and opens
it with the literal "No source URL" when the URL is absent or empty, while
Provider B's renderer emits no source line at all in that case. -/
theorem renderer_no_source_url_amended :
    (∀ story : SyrStory, story.document_url.getD "" = "" →
        ∃ rest, syracuseSourceLine story = "No source URL" ++ rest) ∧
      ∀ article : Article, article.document_url.getD "" = "" →
        perplexitySourceLines article = [] := by
  refine ⟨fun story h => ?_, fun article h => ?_⟩
  · refine ⟨" | " ++ (if story.uri.getD "" = "" then "No Syracuse URI"
      else "[View on Syracuse](" ++ SYRACUSE_BASE_URL ++ "/api/v1/stories/" ++
        story.uri.getD "" ++ ")"), ?_⟩
    simp only [syracuseSourceLine]
    rw [if_pos h]
    apply String.ext
    simp [String.data_append]
  · simp only [perplexitySourceLines]
    rw [if_pos h]

/-- Witness for C8 (amended): a story and an article both lacking a URL. -/
theorem renderer_no_source_url_amended_witness :
    (storyNoUrl.document_url.getD "" = "" ∧
        ∃ rest, syracuseSourceLine storyNoUrl = "No source URL" ++ rest) ∧
      artNoUrl.document_url.getD "" = "" ∧ perplexitySourceLines artNoUrl = [] :=
  ⟨⟨rfl, renderer_no_source_url_amended.1 storyNoUrl rfl⟩,
   rfl, renderer_no_source_url_amended.2 artNoUrl rfl⟩

/-- C10: every submitted query uses a fixed 90-day lookback window: the
Provider A request always sends `days_ago = 90`, and the Provider B request
always sends `search_after_date_filter = today - 90 days` and
`search_before_date_filter = today`, both formatted `MM/DD/YYYY`; neither
fetch model takes a lookback argument — their only inputs are industry,
location and the current date. -/
theorem fixed_lookback_window :
    NUM_DAYS = 90 ∧
      (∀ industry location : String,
        (syracuseParams industry location).lookup "days_ago" = some (toString 90)) ∧
      (∀ today : PyDate,
        (perplexityDateFilters today).search_before_date_filter = strftimeMDY today ∧
          (perplexityDateFilters today).search_after_date_filter =
            strftimeMDY (subDays today 90)) ∧
      perplexityDateFilters ⟨2026, 10, 12⟩ = ⟨"07/14/2026", "10/12/2026"⟩ := by
  refine ⟨rfl, fun industry location => ?_, fun today => ⟨rfl, rfl⟩, by decide⟩
  simp [syracuseParams, List.lookup, NUM_DAYS]

end NewsApp
